import Mathlib

/-!
Verification of the rustic profile-to-invocation resolution engine.

This file shallowly embeds the core of the rustic backup tool
(src/config.rs, src/backup.rs, src/forget.rs, src/restic.rs,
src/snapshots.rs) in Lean 4 and proves properties of it:

* the configuration data model (`Fileset`, `RetentionPolicy`, `Profile`);
* fileset-inheritance flattening (`write_fileset`, fuel-indexed since the
  Rust recursion is unbounded on cyclic inheritance graphs);
* credential resolution (`add_password`, `add_credentials`);
* retention-policy translation (`add_policy`);
* invocation construction for backup / forget / snapshots / the
  repository-existence probe, with process exit statuses passed in as
  parameters (spawning is a collaborator of the core).

Machine-level details that the source delegates (process spawning, temp
files, TOML parsing) appear as parameters: an exit status is a `Bool`
(`true` = exit success), a spawn outcome is `Option Bool` (`none` = the
process could not be started), a file's parsed contents are an
association list.
-/

namespace Rustic

/-- A filesystem path, abstracted to what the code observes: whether it is
absolute, and its components.  Mirrors `std::path::PathBuf` as used by
`config.rs` / `restic.rs`. -/
structure Path where
  absolute : Bool
  components : List String
deriving DecidableEq, Inhabited

/-- `PathBuf::join`: resolves the argument against `self` if it is
relative, and returns the argument itself if it is absolute (the behavior
`add_credentials` in src/restic.rs relies on). -/
def Path.join (base p : Path) : Path :=
  if p.absolute then p else ⟨base.absolute, base.components ++ p.components⟩

/-- `Fileset` from src/config.rs: names of other filesets to inherit from,
and this fileset's own patterns. -/
structure Fileset where
  inherits : List String
  patterns : List String
deriving DecidableEq, Inhabited

/-- The configuration's `filesets` map (`HashMap<String, Fileset>`),
modeled as an association list with unique keys. -/
abbrev FilesetMap := List (String × Fileset)

/-- `HashMap::get` on the fileset map. -/
def lookupFileset (named : FilesetMap) (name : String) : Option Fileset :=
  List.lookup name named

/-- Outcome of `write_fileset` from src/backup.rs.  The Rust function
writes lines to a `&mut W` stream as it goes, so every outcome carries the
stream contents accumulated so far — including the error outcomes, because
a `bail!`/`?` return does not undo lines already written.  `outOfFuel`
stands for a recursion that has not terminated within the given fuel. -/
inductive WfsResult where
  | ok (out : List String)
  | unknownFileset (name : String) (out : List String)
  | outOfFuel (out : List String)
deriving DecidableEq

/-- Whether the fuel ran out before the traversal finished. -/
def WfsResult.ranOut : WfsResult → Bool
  | .outOfFuel _ => true
  | _ => false

/-- `write_fileset` from src/backup.rs: append the fileset's own patterns
to the output stream, then resolve each inherited fileset in listed order
(the `for inherited in fileset.inherits` loop: look each name up in the
configuration's fileset map, recurse on a hit, bail with the unknown name
on a miss, propagate the first error and stop).  The Rust recursion has no
cycle detection, so the embedding is indexed by fuel, consumed once per
recursive call; `outOfFuel` models a recursion still running after `fuel`
nested calls. -/
def write_fileset : Nat → List String → Fileset → FilesetMap → WfsResult
  | 0, out, _, _ => .outOfFuel out
  | Nat.succ fuel, out, fs, named =>
    fs.inherits.foldl (fun acc name =>
      match acc with
      | .ok out =>
        match lookupFileset named name with
        | some fs' => write_fileset fuel out fs' named
        | none => .unknownFileset name out
      | r => r) (.ok (out ++ fs.patterns))

/-- `RetentionPolicy` from src/config.rs. -/
structure RetentionPolicy where
  keep_last : Option Nat := none
  keep_hourly : Option Nat := none
  keep_daily : Option Nat := none
  keep_weekly : Option Nat := none
  keep_monthly : Option Nat := none
  keep_yearly : Option Nat := none
  keep_within : Option String := none
  keep_tags : List (List String) := []
deriving DecidableEq, Inhabited

/-- `RetentionPolicy::is_empty` from src/config.rs: true when the policy
specifies no snapshots to keep. -/
def RetentionPolicy.is_empty (p : RetentionPolicy) : Bool :=
  p.keep_last.isNone
    && p.keep_hourly.isNone
    && p.keep_daily.isNone
    && p.keep_weekly.isNone
    && p.keep_monthly.isNone
    && p.keep_yearly.isNone
    && p.keep_within.isNone
    && p.keep_tags.isEmpty

/-- `Profile` from src/config.rs.  `environment` is an association list
standing for the profile's `HashMap<String, String>`; its keys are unique
in the real map, which the theorems that need it take as a hypothesis. -/
structure Profile where
  repository : String
  auto_init : Bool := false
  base_directory : Path
  password : Option String := none
  password_file : Option String := none
  password_command : Option String := none
  environment : List (String × String) := []
  environment_file : Option Path := none
  «include» : Fileset
  exclude : Fileset := ⟨[], []⟩
  exclude_caches : Bool := false
  one_file_system : Bool := false
  ignore_inode : Bool := false
  retention : RetentionPolicy := {}
deriving DecidableEq, Inhabited

/-- An environment map (`HashMap<OsString, OsString>`), modeled as an
association list kept key-unique by `envInsert`. -/
abbrev Env := List (String × String)

/-- `HashMap::insert`: the new binding replaces any existing binding of
the same key. -/
def envInsert (env : Env) (k v : String) : Env :=
  (List.filter (fun kv => kv.1 != k) env) ++ [(k, v)]

/-- Value of a key in an environment map (`HashMap::get`). -/
def envLookup (env : Env) (k : String) : Option String :=
  List.lookup k env

/-- The value the last insertion of `k` would have left in a map built
from the entries of `l` in order: the rightmost binding of `k` in `l`. -/
def lookupLast (l : List (String × String)) (k : String) : Option String :=
  envLookup l.reverse k

/-- The resolution-time errors of `Restic::for_profile` and its helpers
in src/restic.rs, mirroring the `bail!` sites of `add_password`. -/
inductive CredError where
  | conflict (a b : String)
  | missingPasswordSource
deriving DecidableEq

/-- `add_password` from src/restic.rs: enforces that exactly one of
`password`/`password_file`/`password_command` is set; an inline password
goes into the environment as `RESTIC_PASSWORD`, a password file or
password command goes onto the command line as a flag.  Returns the
extended `(args, env)` pair. -/
def add_password (profile : Profile) (args : List String) (env : Env) :
    Except CredError (List String × Env) :=
  match profile.password with
  | some password =>
    if profile.password_file.isSome then
      .error (.conflict "password" "password_file")
    else if profile.password_command.isSome then
      .error (.conflict "password" "password_command")
    else
      .ok (args, envInsert env "RESTIC_PASSWORD" password)
  | none =>
    match profile.password_file with
    | some password_file =>
      if profile.password_command.isSome then
        .error (.conflict "password_file" "password_command")
      else
        .ok (args ++ ["--password-file", password_file], env)
    | none =>
      match profile.password_command with
      | some password_command =>
        .ok (args ++ ["--password-command", password_command], env)
      | none => .error .missingPasswordSource

/-- The path `add_credentials` reads the environment file from:
`profile.base_directory.join(environment_file)`, i.e. resolved against the
base directory unless already absolute. -/
def environment_file_path (profile : Profile) : Option Path :=
  profile.environment_file.map (fun f => profile.base_directory.join f)

/-- `add_credentials` from src/restic.rs: insert the profile's inline
`environment` entries into the shared environment, then, when an
environment file is configured, insert the entries parsed from it
(overriding same-named earlier entries).  Reading and TOML-parsing the
file are collaborators, so the parsed file contents arrive as the
`fileContents` parameter. -/
def add_credentials (profile : Profile)
    (fileContents : List (String × String)) (env : Env) : Env :=
  let env := profile.environment.foldl (fun e kv => envInsert e kv.1 kv.2) env
  match profile.environment_file with
  | some _ => fileContents.foldl (fun e kv => envInsert e kv.1 kv.2) env
  | none => env

/-- The immutable per-profile command template assembled by
`Restic::for_profile` in src/restic.rs: executable name, working
directory, shared argument list, shared environment. -/
structure ResticCtx where
  restic_command : String
  base_directory : Path
  shared_args : List String
  shared_env : Env
deriving DecidableEq, Inhabited

/-- `Restic::for_profile` (src/restic.rs), after the profile lookup:
run `add_password` and `add_credentials`, then append
`--repo <repository>` to the shared arguments. -/
def for_profile (restic_command : String) (profile : Profile)
    (fileContents : List (String × String)) : Except CredError ResticCtx := do
  let (args, env) ← add_password profile [] []
  let env := add_credentials profile fileContents env
  pure ⟨restic_command, profile.base_directory,
    args ++ ["--repo", profile.repository], env⟩

/-- A fully resolved external-engine invocation: program, arguments,
environment, working directory (`std::process::Command` as configured by
`Restic::new_command` and the per-operation extensions). -/
structure Invocation where
  program : String
  args : List String
  env : Env
  workdir : Path
deriving DecidableEq, Inhabited

/-- `Restic::new_command` from src/restic.rs. -/
def new_command (t : ResticCtx) : Invocation :=
  ⟨t.restic_command, t.shared_args, t.shared_env, t.base_directory⟩

/-- `Command::arg`. -/
def Invocation.arg (i : Invocation) (a : String) : Invocation :=
  { i with args := i.args ++ [a] }

/-- `Command::args`. -/
def Invocation.argList (i : Invocation) (l : List String) : Invocation :=
  { i with args := i.args ++ l }

/-- One `if let Some(x) = field { cmd.arg(flag).arg(x.to_string()) }`
block of `add_policy` (src/forget.rs), for the `Option<usize>` fields. -/
def addOptNat (cmd : Invocation) (flag : String) : Option Nat → Invocation
  | some n => (cmd.arg flag).arg (toString n)
  | none => cmd

/-- The same block for the `Option<String>` field (`keep_within`), whose
value is passed through without conversion. -/
def addOptStr (cmd : Invocation) (flag : String) : Option String → Invocation
  | some w => (cmd.arg flag).arg w
  | none => cmd

/-- `add_policy` from src/forget.rs: append the retention policy's flags
to the command, in source order — keep-last, keep-hourly, keep-daily,
keep-weekly, keep-monthly, keep-yearly, keep-within, then one
`--keep-tag` per tag group, its value the group's tags joined with `,`
(`itertools::join`). -/
def add_policy (policy : RetentionPolicy) (cmd : Invocation) : Invocation :=
  let cmd := addOptNat cmd "--keep-last" policy.keep_last
  let cmd := addOptNat cmd "--keep-hourly" policy.keep_hourly
  let cmd := addOptNat cmd "--keep-daily" policy.keep_daily
  let cmd := addOptNat cmd "--keep-weekly" policy.keep_weekly
  let cmd := addOptNat cmd "--keep-monthly" policy.keep_monthly
  let cmd := addOptNat cmd "--keep-yearly" policy.keep_yearly
  let cmd := addOptStr cmd "--keep-within" policy.keep_within
  policy.keep_tags.foldl
    (fun c taglist => (c.arg "--keep-tag").arg (String.intercalate "," taglist)) cmd

/-- Failures an operation can report to its caller.  `couldNotRun` is the
spawn failure (`cmd.status()` returning `Err`); the others are the
`bail!`/`anyhow!` sites of the operation bodies. -/
inductive RunError where
  | couldNotRun
  | initFailed
  | backupFailed
  | forgetFailed
  | pruneFailed
  | repositoryNotInitialized
  | filesetError (r : WfsResult)
deriving DecidableEq

/-- The spawn collaborator's report for one process: `none` when the
process could not be started at all, `some status` with `status = true`
exactly when the process exited successfully. -/
abbrev SpawnOutcome := Option Bool

/-- The `init` command line built by `Restic::init` (src/backup.rs). -/
def init_command (t : ResticCtx) : Invocation :=
  (new_command t).arg "init"

/-- Tail of `Restic::init` (src/backup.rs): a spawn failure or a failing
exit status is an error, a successful exit is `Ok(())`. -/
def init_run (spawn : SpawnOutcome) : Except RunError Unit :=
  match spawn with
  | none => .error .couldNotRun
  | some true => .ok ()
  | some false => .error .initFailed

/-- The `backup` command line built by `Restic::backup` (src/backup.rs):
`backup --files-from <include> --exclude-file <exclude>` plus one optional
flag per profile boolean, each present iff the boolean is set. -/
def backup_command (t : ResticCtx) (profile : Profile)
    (includePath excludePath : String) : Invocation :=
  let cmd := ((((new_command t).arg "backup").arg "--files-from").arg
    includePath).arg "--exclude-file" |>.arg excludePath
  let cmd := if profile.exclude_caches then cmd.arg "--exclude-caches" else cmd
  let cmd := if profile.one_file_system then cmd.arg "--one-file-system" else cmd
  if profile.ignore_inode then cmd.arg "--ignore-inode" else cmd

/-- `Restic::backup` (src/backup.rs), up to spawning: decide whether the
repository must first be initialized (`repoExists` is the probe's answer),
resolve the include and exclude filesets into the caller-owned temporary
files, and produce the engine invocations to run, in order.  A repository
that does not exist without `auto_init` fails `repositoryNotInitialized`
and produces no invocation; with `auto_init` the init invocation precedes
the backup invocation.  `fuel` bounds the fileset recursion as in
`write_fileset`. -/
def backup_plan (t : ResticCtx) (profile : Profile) (named : FilesetMap)
    (repoExists : Bool) (fuel : Nat) (includePath excludePath : String) :
    Except RunError (List Invocation) := do
  let pre ←
    if repoExists then pure ([] : List Invocation)
    else if profile.auto_init then pure [init_command t]
    else .error .repositoryNotInitialized
  let _includes ← match write_fileset fuel [] profile.«include» named with
    | .ok l => pure l
    | r => .error (.filesetError r)
  let _excludes ← match write_fileset fuel [] profile.exclude named with
    | .ok l => pure l
    | r => .error (.filesetError r)
  pure (pre ++ [backup_command t profile includePath excludePath])

/-- Tail of `Restic::backup`: failing exit status is an error. -/
def backup_run (spawn : SpawnOutcome) : Except RunError Unit :=
  match spawn with
  | none => .error .couldNotRun
  | some true => .ok ()
  | some false => .error .backupFailed

/-- The `forget` command line built by `Restic::forget` (src/forget.rs)
for a non-empty policy: `forget`, the policy flags, then `--prune` iff
requested. -/
def forget_command (t : ResticCtx) (policy : RetentionPolicy)
    (prune : Bool) : Invocation :=
  let cmd := add_policy policy ((new_command t).arg "forget")
  if prune then cmd.arg "--prune" else cmd

/-- `Restic::forget` (src/forget.rs), up to spawning: with an empty
retention policy it runs nothing and succeeds (a warning-level no-op);
otherwise it runs the forget invocation. -/
def forget_plan (t : ResticCtx) (profile : Profile) (prune : Bool) :
    List Invocation :=
  if profile.retention.is_empty then []
  else [forget_command t profile.retention prune]

/-- Tail of `Restic::forget` for a non-empty policy: failing exit status
is an error. -/
def forget_run (spawn : SpawnOutcome) : Except RunError Unit :=
  match spawn with
  | none => .error .couldNotRun
  | some true => .ok ()
  | some false => .error .forgetFailed

/-- Tail of `Restic::prune` (src/forget.rs): failing exit status is an
error. -/
def prune_run (spawn : SpawnOutcome) : Except RunError Unit :=
  match spawn with
  | none => .error .couldNotRun
  | some true => .ok ()
  | some false => .error .pruneFailed

/-- The probe command line built by `Restic::repository_exists`
(src/restic.rs): `snapshots --compact --last` with all standard streams
suppressed. -/
def repository_exists_command (t : ResticCtx) : Invocation :=
  (((new_command t).arg "snapshots").arg "--compact").arg "--last"

/-- `Restic::repository_exists` (src/restic.rs): a spawn failure
propagates as an error, but the spawned process's exit status is
interpreted, not propagated — success means the repository exists,
failure means it is assumed not to exist, and neither is an error. -/
def repository_exists_run (spawn : SpawnOutcome) : Except RunError Bool :=
  match spawn with
  | none => .error .couldNotRun
  | some status => .ok status

/-- The `snapshots` command line built by `Restic::dump_snapshots`
(src/snapshots.rs): `snapshots` plus the caller's extra arguments,
verbatim. -/
def dump_snapshots_command (t : ResticCtx) (extra : List String) :
    Invocation :=
  ((new_command t).arg "snapshots").argList extra

/-- `Restic::dump_snapshots` (src/snapshots.rs): a spawn failure
propagates (`cmd.status()?`), but the exit status itself is discarded —
the function returns `Ok(())` whether or not the process succeeded. -/
def dump_snapshots_run (spawn : SpawnOutcome) : Except RunError Unit :=
  match spawn with
  | none => .error .couldNotRun
  | some _ => .ok ()

/-- `Restic::forget` as a whole (src/forget.rs): with an empty retention
policy, no process is spawned and the call succeeds having run nothing;
otherwise the forget invocation runs and its outcome is interpreted by
`forget_run`.  Returns the invocations that were run. -/
def forget_op (t : ResticCtx) (profile : Profile) (prune : Bool)
    (spawn : SpawnOutcome) : Except RunError (List Invocation) :=
  if profile.retention.is_empty then .ok []
  else
    match forget_run spawn with
    | .ok _ => .ok [forget_command t profile.retention prune]
    | .error e => .error e

/-- The inherits-loop of `write_fileset`, starting from an arbitrary
accumulated result. -/
def write_inherits (fuel : Nat) (named : FilesetMap) (acc : WfsResult)
    (names : List String) : WfsResult :=
  names.foldl (fun acc name =>
    match acc with
    | .ok out =>
      match lookupFileset named name with
      | some fs' => write_fileset fuel out fs' named
      | none => .unknownFileset name out
    | r => r) acc

/-- Apply a function to the output buffer carried by a result. -/
def WfsResult.mapOut (f : List String → List String) : WfsResult → WfsResult
  | .ok out => .ok (f out)
  | .unknownFileset name out => .unknownFileset name (f out)
  | .outOfFuel out => .outOfFuel (f out)

/-- One inherited name resolving to the stream contents `l`:
the name is present in the map and its fileset flattens to `l` from an
empty stream within the given fuel. -/
def ResolvesTo (fuel : Nat) (named : FilesetMap) (name : String)
    (l : List String) : Prop :=
  ∃ fs', lookupFileset named name = some fs'
    ∧ write_fileset fuel [] fs' named = .ok l

/-- A fileset from which an unresolvable inherited name is reachable:
either one of its own inherited names is absent from the map, or one of
them resolves to a fileset with the same defect. -/
inductive MissingName (named : FilesetMap) : Fileset → Prop
  | direct {fs : Fileset} {name : String} :
      name ∈ fs.inherits → lookupFileset named name = none →
      MissingName named fs
  | trans {fs fs' : Fileset} {name : String} :
      name ∈ fs.inherits → lookupFileset named name = some fs' →
      MissingName named fs' → MissingName named fs

/-- Bounded resolution depth: the fileset's reachable inheritance tree
(following only names that resolve in the map) has depth at most `n`.
For the finite graphs of a real configuration this bound exists exactly
when the reachable inheritance graph is acyclic. -/
inductive DepthLE (named : FilesetMap) : Fileset → Nat → Prop
  | step {fs : Fileset} {n : Nat}
      (h : ∀ name fs', name ∈ fs.inherits →
        lookupFileset named name = some fs' → DepthLE named fs' n) :
      DepthLE named fs (n + 1)

/-- A fileset that directly inherits itself, and the configuration map
binding its name to it. -/
def cyclicFs : Fileset := ⟨["self"], ["p"]⟩

/-- The fileset map with the self-inheriting fileset under its own
name. -/
def cyclicMap : FilesetMap := [("self", cyclicFs)]

/-- Zero or one (flag, value) pair from an optional field. -/
def optPair (flag : String) : Option String → List (String × String)
  | some v => [(flag, v)]
  | none => []

/-- Modelled from the spec (§4.3 Retention Translator), for comparison
with `add_policy`: the ordered sequence of (flag, value) pairs —
keep-last, keep-hourly, keep-daily, keep-weekly, keep-monthly,
keep-yearly, keep-within, then one keep-tag pair per entry of
`keep_tags`, each value joining that tag-group's strings with a comma;
absent optional fields emit no pair. -/
def translate_spec (p : RetentionPolicy) : List (String × String) :=
  optPair "--keep-last" (p.keep_last.map toString)
    ++ optPair "--keep-hourly" (p.keep_hourly.map toString)
    ++ optPair "--keep-daily" (p.keep_daily.map toString)
    ++ optPair "--keep-weekly" (p.keep_weekly.map toString)
    ++ optPair "--keep-monthly" (p.keep_monthly.map toString)
    ++ optPair "--keep-yearly" (p.keep_yearly.map toString)
    ++ optPair "--keep-within" p.keep_within
    ++ p.keep_tags.map
        (fun taglist => ("--keep-tag", String.intercalate "," taglist))

/-- Flatten (flag, value) pairs into a flat argument list. -/
def pairArgs (l : List (String × String)) : List String :=
  (l.map (fun pr => [pr.1, pr.2])).flatten

/-!
## Lemma infrastructure for the fileset resolver

`write_inherits` names the inherits-loop of `write_fileset` so proofs can
peel one inherited name at a time; `WfsResult.mapOut` applies a function
to the output buffer of any outcome.
-/

theorem write_fileset_succ (fuel : Nat) (out : List String) (fs : Fileset)
    (named : FilesetMap) :
    write_fileset (fuel + 1) out fs named
      = write_inherits fuel named (.ok (out ++ fs.patterns)) fs.inherits := rfl

theorem write_inherits_nil (fuel : Nat) (named : FilesetMap)
    (acc : WfsResult) : write_inherits fuel named acc [] = acc := rfl

theorem write_inherits_unknown (fuel : Nat) (named : FilesetMap)
    (n : String) (o : List String) (names : List String) :
    write_inherits fuel named (.unknownFileset n o) names
      = .unknownFileset n o := by
  induction names with
  | nil => rfl
  | cons name rest ih => exact ih

theorem write_inherits_outOfFuel (fuel : Nat) (named : FilesetMap)
    (o : List String) (names : List String) :
    write_inherits fuel named (.outOfFuel o) names = .outOfFuel o := by
  induction names with
  | nil => rfl
  | cons name rest ih => exact ih

theorem write_inherits_cons_some {named : FilesetMap} {name : String}
    {fs' : Fileset} (h : lookupFileset named name = some fs')
    (fuel : Nat) (out : List String) (rest : List String) :
    write_inherits fuel named (.ok out) (name :: rest)
      = write_inherits fuel named (write_fileset fuel out fs' named) rest := by
  simp [write_inherits, List.foldl, h]

theorem write_inherits_cons_none {named : FilesetMap} {name : String}
    (h : lookupFileset named name = none)
    (fuel : Nat) (out : List String) (rest : List String) :
    write_inherits fuel named (.ok out) (name :: rest)
      = .unknownFileset name out := by
  have : write_inherits fuel named (.ok out) (name :: rest)
      = write_inherits fuel named (.unknownFileset name out) rest := by
    simp [write_inherits, List.foldl, h]
  rw [this, write_inherits_unknown]

/-- The output stream only ever grows: running `write_fileset` on a
stream already holding `out` gives the same outcome as running it on an
empty stream and prepending `out` to whatever buffer results. -/
theorem write_fileset_mapOut (fuel : Nat) :
    ∀ (fs : Fileset) (named : FilesetMap) (out : List String),
      write_fileset fuel out fs named
        = (write_fileset fuel [] fs named).mapOut (fun l => out ++ l) := by
  induction fuel with
  | zero => intro fs named out; simp [write_fileset, WfsResult.mapOut]
  | succ fuel ih =>
    have inner : ∀ (named : FilesetMap) (names : List String)
        (pre o : List String),
        write_inherits fuel named (.ok (pre ++ o)) names
          = (write_inherits fuel named (.ok o) names).mapOut
              (fun l => pre ++ l) := by
      intro named names
      induction names with
      | nil => intro pre o; simp [write_inherits, WfsResult.mapOut]
      | cons name rest ihn =>
        intro pre o
        cases hlk : lookupFileset named name with
        | none =>
          rw [write_inherits_cons_none hlk, write_inherits_cons_none hlk]
          simp [WfsResult.mapOut]
        | some fs' =>
          rw [write_inherits_cons_some hlk, write_inherits_cons_some hlk]
          have h1 : write_fileset fuel (pre ++ o) fs' named
              = (write_fileset fuel o fs' named).mapOut (fun l => pre ++ l) := by
            rw [ih fs' named (pre ++ o), ih fs' named o]
            cases write_fileset fuel [] fs' named <;>
              simp [WfsResult.mapOut, List.append_assoc]
          rw [h1]
          cases hr : write_fileset fuel o fs' named with
          | ok out' => simpa [WfsResult.mapOut] using ihn pre out'
          | unknownFileset n b =>
            simp [WfsResult.mapOut, write_inherits_unknown]
          | outOfFuel b =>
            simp [WfsResult.mapOut, write_inherits_outOfFuel]
    intro fs named out
    rw [write_fileset_succ, write_fileset_succ]
    have := inner named fs.inherits out fs.patterns
    simpa using this

/-- Pre-order flattening: when every inherited name of `fs` resolves (to
`ls`, pointwise in listed order), `write_fileset` emits `fs`'s own
patterns first and then the resolved pattern lists in order, without
deduplication. -/
theorem write_fileset_flatten (fuel : Nat) (fs : Fileset)
    (named : FilesetMap) (ls : List (List String))
    (h : List.Forall₂ (ResolvesTo fuel named) fs.inherits ls) :
    write_fileset (fuel + 1) [] fs named = .ok (fs.patterns ++ ls.flatten) := by
  rw [write_fileset_succ]
  have main : ∀ (names : List String) (ls : List (List String)),
      List.Forall₂ (ResolvesTo fuel named) names ls →
      ∀ o, write_inherits fuel named (.ok o) names = .ok (o ++ ls.flatten) := by
    intro names ls h
    induction h with
    | nil => intro o; simp [write_inherits_nil]
    | @cons name l names' ls' hr _ ihn =>
      intro o
      obtain ⟨fs', hlk, hwf⟩ := hr
      rw [write_inherits_cons_some hlk]
      have h1 : write_fileset fuel o fs' named = .ok (o ++ l) := by
        rw [write_fileset_mapOut fuel fs' named o, hwf]; rfl
      rw [h1, ihn (o ++ l)]
      simp [List.append_assoc]
  have := main fs.inherits ls h (([] : List String) ++ fs.patterns)
  simpa using this

/-- When the inherits-loop finishes successfully, every name it visited
was found in the map and its fileset resolved successfully. -/
theorem write_inherits_ok_lookup (fuel : Nat) (named : FilesetMap) :
    ∀ (names : List String) (o res : List String) (name : String),
      write_inherits fuel named (.ok o) names = .ok res → name ∈ names →
      ∃ fs' out' res', lookupFileset named name = some fs'
        ∧ write_fileset fuel out' fs' named = .ok res' := by
  intro names
  induction names with
  | nil => intro o res name _ hmem; cases hmem
  | cons nm rest ih =>
    intro o res name hok hmem
    cases hlk : lookupFileset named nm with
    | none =>
      rw [write_inherits_cons_none hlk] at hok
      cases hok
    | some fs1 =>
      rw [write_inherits_cons_some hlk] at hok
      cases hr : write_fileset fuel o fs1 named with
      | ok o' =>
        rw [hr] at hok
        rcases List.mem_cons.mp hmem with heq | hmem'
        · exact heq ▸ ⟨fs1, o, o', hlk, hr⟩
        · exact ih o' res name hok hmem'
      | unknownFileset n b =>
        rw [hr, write_inherits_unknown] at hok; cases hok
      | outOfFuel b =>
        rw [hr, write_inherits_outOfFuel] at hok; cases hok

/-- Resolution of a fileset with a reachable unresolvable name never
succeeds, at any fuel. -/
theorem missing_never_ok {named : FilesetMap} {fs : Fileset}
    (h : MissingName named fs) :
    ∀ fuel out res, write_fileset fuel out fs named ≠ .ok res := by
  induction h with
  | direct hmem hlk =>
    intro fuel out res hok
    cases fuel with
    | zero => simp [write_fileset] at hok
    | succ fuel =>
      rw [write_fileset_succ] at hok
      obtain ⟨fs', out', res', hlk', _⟩ :=
        write_inherits_ok_lookup fuel named _ _ res _ hok hmem
      rw [hlk] at hlk'; cases hlk'
  | trans hmem hlk _ ih =>
    intro fuel out res hok
    cases fuel with
    | zero => simp [write_fileset] at hok
    | succ fuel =>
      rw [write_fileset_succ] at hok
      obtain ⟨fs'', out', res', hlk', hwf⟩ :=
        write_inherits_ok_lookup fuel named _ _ res _ hok hmem
      rw [hlk] at hlk'
      injection hlk' with heq
      exact ih fuel out' res' (heq ▸ hwf)

/-- When resolution fails with `unknownFileset name`, that name really is
absent from the configuration's fileset map. -/
theorem write_fileset_unknown_absent :
    ∀ (fuel : Nat) (fs : Fileset) (named : FilesetMap)
      (out : List String) (name : String) (buf : List String),
      write_fileset fuel out fs named = .unknownFileset name buf →
      lookupFileset named name = none := by
  intro fuel
  induction fuel with
  | zero => intro fs named out name buf h; simp [write_fileset] at h
  | succ fuel ih =>
    have inner : ∀ (named : FilesetMap) (names : List String)
        (o : List String) (name : String) (buf : List String),
        write_inherits fuel named (.ok o) names = .unknownFileset name buf →
        lookupFileset named name = none := by
      intro named names
      induction names with
      | nil => intro o name buf h; cases h
      | cons nm rest ihn =>
        intro o name buf h
        cases hlk : lookupFileset named nm with
        | none =>
          rw [write_inherits_cons_none hlk] at h
          injection h with h1 h2
          exact h1 ▸ hlk
        | some fs1 =>
          rw [write_inherits_cons_some hlk] at h
          cases hr : write_fileset fuel o fs1 named with
          | ok o' => rw [hr] at h; exact ihn o' name buf h
          | unknownFileset n b =>
            rw [hr, write_inherits_unknown] at h
            injection h with h1 h2
            exact h1 ▸ ih fs1 named o n b hr
          | outOfFuel b =>
            rw [hr, write_inherits_outOfFuel] at h; cases h
    intro fs named out name buf h
    rw [write_fileset_succ] at h
    exact inner named fs.inherits (out ++ fs.patterns) name buf h

/-- The inherits-loop cannot run out of fuel when neither its starting
accumulator nor any of its recursive resolutions can. -/
theorem write_inherits_ranOut (fuel : Nat) (named : FilesetMap) :
    ∀ (names : List String) (acc : WfsResult),
      (∀ name fs', name ∈ names → lookupFileset named name = some fs' →
        ∀ out, (write_fileset fuel out fs' named).ranOut = false) →
      acc.ranOut = false →
      (write_inherits fuel named acc names).ranOut = false := by
  intro names
  induction names with
  | nil => intro acc _ hacc; exact hacc
  | cons nm rest ihn =>
    intro acc hnames hacc
    cases acc with
    | ok o =>
      cases hlk : lookupFileset named nm with
      | none => rw [write_inherits_cons_none hlk]; rfl
      | some fs1 =>
        rw [write_inherits_cons_some hlk]
        exact ihn _
          (fun name fs' hm hl out => hnames name fs'
            (List.mem_cons_of_mem _ hm) hl out)
          (hnames nm fs1 (List.mem_cons_self nm rest) hlk o)
    | unknownFileset n b => rw [write_inherits_unknown]; rfl
    | outOfFuel b => simp [WfsResult.ranOut] at hacc

/-- A fileset of bounded resolution depth `n` finishes within fuel `n`:
the traversal terminates (with a success or an unknown-fileset error, but
never by exhausting the fuel). -/
theorem depthLE_no_fuel_exhaustion {named : FilesetMap} {fs : Fileset}
    {n : Nat} (h : DepthLE named fs n) :
    ∀ out, (write_fileset n out fs named).ranOut = false := by
  induction h with
  | @step fs n _ ih =>
    intro out
    rw [write_fileset_succ]
    exact write_inherits_ranOut n named fs.inherits _
      (fun name fs' hm hl out' => ih name fs' hm hl out') rfl

/-- On the self-inheriting fileset, every amount of fuel is exhausted:
the source recursion never terminates. -/
theorem cyclic_exhausts_fuel :
    ∀ fuel out, (write_fileset fuel out cyclicFs cyclicMap).ranOut = true := by
  intro fuel
  induction fuel with
  | zero => intro out; rfl
  | succ fuel ih =>
    intro out
    have hlk : lookupFileset cyclicMap "self" = some cyclicFs := rfl
    rw [write_fileset_succ]
    show (write_inherits fuel cyclicMap
      (.ok (out ++ cyclicFs.patterns)) ("self" :: [])).ranOut = true
    rw [write_inherits_cons_some hlk]
    cases hr : write_fileset fuel (out ++ cyclicFs.patterns) cyclicFs cyclicMap with
    | ok o => have := ih (out ++ cyclicFs.patterns); rw [hr] at this; cases this
    | unknownFileset n b =>
      have := ih (out ++ cyclicFs.patterns); rw [hr] at this; cases this
    | outOfFuel b => rw [write_inherits_outOfFuel]; rfl

/-!
## Lemma infrastructure for environment maps
-/

theorem envLookup_nil (k : String) : envLookup [] k = none := rfl

theorem envLookup_cons (k1 v1 : String) (rest : Env) (k : String) :
    envLookup ((k1, v1) :: rest) k
      = if k = k1 then some v1 else envLookup rest k := by
  by_cases h : k = k1
  · simp [envLookup, List.lookup, h]
  · have hb : (k == k1) = false := beq_false_of_ne h
    simp [envLookup, List.lookup, hb, h]

theorem envLookup_append (l1 l2 : Env) (k : String) :
    envLookup (l1 ++ l2) k
      = match envLookup l1 k with
        | some v => some v
        | none => envLookup l2 k := by
  induction l1 with
  | nil => rfl
  | cons kv rest ih =>
    obtain ⟨k1, v1⟩ := kv
    rw [List.cons_append, envLookup_cons, envLookup_cons]
    by_cases h : k = k1 <;> simp [h, ih]

theorem envLookup_filter_self (env : Env) (k : String) :
    envLookup (List.filter (fun kv => kv.1 != k) env) k = none := by
  induction env with
  | nil => rfl
  | cons kv rest ih =>
    obtain ⟨k1, v1⟩ := kv
    simp only [List.filter_cons]
    by_cases h : k1 = k
    · have hb : ((k1, v1).1 != k) = false := by simp [h]
      rw [hb]; simpa using ih
    · have hb : ((k1, v1).1 != k) = true := by simp [h]
      rw [hb, if_pos rfl, envLookup_cons,
        if_neg (fun he => h he.symm)]
      exact ih

theorem envLookup_filter_ne (env : Env) (k k' : String) (h : k' ≠ k) :
    envLookup (List.filter (fun kv => kv.1 != k) env) k'
      = envLookup env k' := by
  induction env with
  | nil => rfl
  | cons kv rest ih =>
    obtain ⟨k1, v1⟩ := kv
    simp only [List.filter_cons]
    by_cases h1 : k1 = k
    · have hb : ((k1, v1).1 != k) = false := by simp [h1]
      rw [hb]
      have : k' ≠ k1 := fun he => h (he.trans h1)
      rw [if_neg (by trivial), envLookup_cons, if_neg this]
      exact ih
    · have hb : ((k1, v1).1 != k) = true := by simp [h1]
      rw [hb, if_pos rfl, envLookup_cons, envLookup_cons, ih]

/-- `HashMap::insert` semantics through `HashMap::get`: the inserted key
maps to the inserted value, all other keys are untouched. -/
theorem envLookup_insert (env : Env) (k v k' : String) :
    envLookup (envInsert env k v) k'
      = if k' = k then some v else envLookup env k' := by
  unfold envInsert
  rw [envLookup_append]
  by_cases h : k' = k
  · subst h
    rw [envLookup_filter_self, if_pos rfl, envLookup_cons, if_pos rfl]
  · rw [envLookup_filter_ne env k k' h, if_neg h, envLookup_cons,
      if_neg h, envLookup_nil]
    cases envLookup env k' <;> rfl

/-- Folding `insert` over a list of entries: the last binding of a key in
the list wins, and keys not bound in the list keep their prior value. -/
theorem envLookup_foldl_insert (l : List (String × String)) :
    ∀ (env : Env) (k : String),
      envLookup (l.foldl (fun e kv => envInsert e kv.1 kv.2) env) k
        = match lookupLast l k with
          | some v => some v
          | none => envLookup env k := by
  induction l with
  | nil => intro env k; rfl
  | cons kv rest ih =>
    intro env k
    obtain ⟨k1, v1⟩ := kv
    rw [List.foldl_cons, ih]
    have hcons : lookupLast ((k1, v1) :: rest) k
        = match lookupLast rest k with
          | some v => some v
          | none => if k = k1 then some v1 else none := by
      unfold lookupLast
      rw [List.reverse_cons, envLookup_append, envLookup_cons]
      cases envLookup rest.reverse k <;> simp [envLookup_nil]
    rw [hcons, envLookup_insert]
    cases lookupLast rest k <;> by_cases h : k = k1 <;> simp [h]

/-!
## Lemma infrastructure for the retention translator and backup plan
-/

theorem argList_argList (cmd : Invocation) (a b : List String) :
    (cmd.argList a).argList b = cmd.argList (a ++ b) := by
  simp [Invocation.argList]

theorem addOptNat_eq (cmd : Invocation) (flag : String) (o : Option Nat) :
    addOptNat cmd flag o
      = cmd.argList (pairArgs (optPair flag (o.map toString))) := by
  cases o <;> simp [addOptNat, Invocation.arg, Invocation.argList,
    pairArgs, optPair]

theorem addOptStr_eq (cmd : Invocation) (flag : String) (o : Option String) :
    addOptStr cmd flag o = cmd.argList (pairArgs (optPair flag o)) := by
  cases o <;> simp [addOptStr, Invocation.arg, Invocation.argList,
    pairArgs, optPair]

theorem keep_tags_foldl (tags : List (List String)) :
    ∀ cmd : Invocation,
      tags.foldl (fun c taglist =>
          (c.arg "--keep-tag").arg (String.intercalate "," taglist)) cmd
        = cmd.argList (pairArgs (tags.map
            (fun taglist => ("--keep-tag", String.intercalate "," taglist)))) := by
  induction tags with
  | nil => intro cmd; simp [Invocation.argList, pairArgs]
  | cons taglist rest ih =>
    intro cmd
    rw [List.foldl_cons, ih]
    simp [Invocation.arg, Invocation.argList, pairArgs]

/-- `add_policy` emits exactly the spec's ordered (flag, value) pair
sequence, flattened onto the command line. -/
theorem add_policy_eq (policy : RetentionPolicy) (cmd : Invocation) :
    add_policy policy cmd = cmd.argList (pairArgs (translate_spec policy)) := by
  simp only [add_policy]
  rw [addOptNat_eq, addOptNat_eq, addOptNat_eq, addOptNat_eq, addOptNat_eq,
    addOptNat_eq, addOptStr_eq, keep_tags_foldl]
  simp only [argList_argList]
  simp [translate_spec, pairArgs, List.append_assoc]

theorem backup_plan_no_auto_init (t : ResticCtx) (profile : Profile)
    (named : FilesetMap) (fuel : Nat) (inc exc : String)
    (h : profile.auto_init = false) :
    backup_plan t profile named false fuel inc exc
      = .error .repositoryNotInitialized := by
  simp only [backup_plan, h, Bool.false_eq_true, if_false]
  rfl

theorem backup_plan_auto_init (t : ResticCtx) (profile : Profile)
    (named : FilesetMap) (fuel : Nat) (inc exc : String)
    (li le : List String) (h : profile.auto_init = true)
    (hinc : write_fileset fuel [] profile.«include» named = .ok li)
    (hexc : write_fileset fuel [] profile.exclude named = .ok le) :
    backup_plan t profile named false fuel inc exc
      = .ok [init_command t, backup_command t profile inc exc] := by
  simp [backup_plan, h, hinc, hexc]
  rfl

/-- The environment produced by `add_credentials` when an environment
file is configured, observed through lookups: a key bound in the file
gets the file's (last) value; otherwise a key bound in the profile's
inline `environment` gets the inline (last) value; otherwise the previous
environment's value survives. -/
theorem add_credentials_lookup (profile : Profile)
    (file : List (String × String)) (env0 : Env) (k : String)
    (h : profile.environment_file.isSome = true) :
    envLookup (add_credentials profile file env0) k
      = match lookupLast file k with
        | some v => some v
        | none => match lookupLast profile.environment k with
          | some v => some v
          | none => envLookup env0 k := by
  unfold add_credentials
  cases hef : profile.environment_file with
  | none => rw [hef] at h; cases h
  | some ef =>
    simp only
    rw [envLookup_foldl_insert, envLookup_foldl_insert]

/-!
## Claims
-/

/-- Claim C1: for every profile, building the backup invocation when the
repository does not exist and `auto_init` is false fails with
`repositoryNotInitialized` (no backup invocation is produced); with the
same profile and `auto_init` true (and the filesets resolving), the plan
is exactly the init invocation followed by the backup invocation, never
the reverse order. -/
theorem backup_requires_existing_or_auto_init (t : ResticCtx)
    (profile : Profile) (named : FilesetMap) (fuel : Nat) (inc exc : String) :
    (profile.auto_init = false →
      backup_plan t profile named false fuel inc exc
        = .error .repositoryNotInitialized)
    ∧ (profile.auto_init = true →
      ∀ li le, write_fileset fuel [] profile.«include» named = .ok li →
        write_fileset fuel [] profile.exclude named = .ok le →
        backup_plan t profile named false fuel inc exc
          = .ok [init_command t, backup_command t profile inc exc]) :=
  ⟨backup_plan_no_auto_init t profile named fuel inc exc,
   fun h li le hinc hexc =>
     backup_plan_auto_init t profile named fuel inc exc li le h hinc hexc⟩

/-- Witness for C1 at a concrete profile: without `auto_init` the plan is
the `repositoryNotInitialized` error; with `auto_init` it is the init
invocation followed by the backup invocation. -/
theorem backup_requires_existing_or_auto_init_witness :
    backup_plan ⟨"restic", ⟨true, []⟩, [], []⟩
        { repository := "r", base_directory := ⟨true, []⟩,
          «include» := ⟨[], ["f"]⟩ }
        [] false 1 "inc" "exc"
      = .error .repositoryNotInitialized
    ∧ backup_plan ⟨"restic", ⟨true, []⟩, [], []⟩
        { repository := "r", auto_init := true, base_directory := ⟨true, []⟩,
          «include» := ⟨[], ["f"]⟩ }
        [] false 1 "inc" "exc"
      = .ok [init_command ⟨"restic", ⟨true, []⟩, [], []⟩,
          backup_command ⟨"restic", ⟨true, []⟩, [], []⟩
            { repository := "r", auto_init := true,
              base_directory := ⟨true, []⟩, «include» := ⟨[], ["f"]⟩ }
            "inc" "exc"] :=
  ⟨(backup_requires_existing_or_auto_init _ _ _ _ _ _).1 rfl,
   (backup_requires_existing_or_auto_init _ _ _ _ _ _).2 rfl ["f"] [] rfl rfl⟩

/-- Claim C2: with exactly one of `password`/`password_file`/
`password_command` set, credential resolution succeeds with the matching
source — an inline password becomes the `RESTIC_PASSWORD` environment
variable, a password file or command becomes command-line flags and
leaves the environment untouched; with any two of the three set it fails
with a conflict error; with none set it fails `missingPasswordSource`. -/
theorem add_password_source_rules (profile : Profile) (args : List String)
    (env : Env) :
    (∀ s, profile.password = some s → profile.password_file = none →
      profile.password_command = none →
      add_password profile args env
        = .ok (args, envInsert env "RESTIC_PASSWORD" s))
    ∧ (∀ f, profile.password = none → profile.password_file = some f →
      profile.password_command = none →
      add_password profile args env
        = .ok (args ++ ["--password-file", f], env))
    ∧ (∀ c, profile.password = none → profile.password_file = none →
      profile.password_command = some c →
      add_password profile args env
        = .ok (args ++ ["--password-command", c], env))
    ∧ ((profile.password.isSome = true ∧ profile.password_file.isSome = true)
        ∨ (profile.password.isSome = true
            ∧ profile.password_command.isSome = true)
        ∨ (profile.password_file.isSome = true
            ∧ profile.password_command.isSome = true) →
      ∃ a b, add_password profile args env = .error (.conflict a b))
    ∧ (profile.password = none → profile.password_file = none →
      profile.password_command = none →
      add_password profile args env = .error .missingPasswordSource) := by
  refine ⟨?_, ?_, ?_, ?_, ?_⟩
  · intro s h1 h2 h3; simp [add_password, h1, h2, h3]
  · intro f h1 h2 h3; simp [add_password, h1, h2, h3]
  · intro c h1 h2 h3; simp [add_password, h1, h2, h3]
  · rintro (⟨h1, h2⟩ | ⟨h1, h2⟩ | ⟨h1, h2⟩)
    · obtain ⟨s, hs⟩ := Option.isSome_iff_exists.mp h1
      exact ⟨"password", "password_file", by simp [add_password, hs, h2]⟩
    · obtain ⟨s, hs⟩ := Option.isSome_iff_exists.mp h1
      cases hf : profile.password_file with
      | some f =>
        exact ⟨"password", "password_file", by simp [add_password, hs, hf]⟩
      | none =>
        exact ⟨"password", "password_command",
          by simp [add_password, hs, hf, h2]⟩
    · cases hp : profile.password with
      | some s =>
        exact ⟨"password", "password_file", by simp [add_password, hp, h1]⟩
      | none =>
        obtain ⟨f, hf⟩ := Option.isSome_iff_exists.mp h1
        exact ⟨"password_file", "password_command",
          by simp [add_password, hp, hf, h2]⟩
  · intro h1 h2 h3; simp [add_password, h1, h2, h3]

/-- Witness for C2 at concrete profiles: inline password alone resolves
to the environment variable; password and password-file together
conflict; no source at all is the missing-source error. -/
theorem add_password_source_rules_witness :
    add_password
        { repository := "r", base_directory := ⟨true, []⟩,
          password := some "pw", «include» := ⟨[], []⟩ } [] []
      = .ok ([], envInsert [] "RESTIC_PASSWORD" "pw")
    ∧ (∃ a b, add_password
        { repository := "r", base_directory := ⟨true, []⟩,
          password := some "pw", password_file := some "pf",
          «include» := ⟨[], []⟩ } [] []
      = .error (.conflict a b))
    ∧ add_password
        { repository := "r", base_directory := ⟨true, []⟩,
          «include» := ⟨[], []⟩ } [] []
      = .error .missingPasswordSource :=
  ⟨(add_password_source_rules _ [] []).1 "pw" rfl rfl rfl,
   (add_password_source_rules _ [] []).2.2.2.1 (Or.inl ⟨rfl, rfl⟩),
   (add_password_source_rules _ [] []).2.2.2.2 rfl rfl rfl⟩

/-- Claim C3: for a fileset whose inherited names all resolve (within the
fuel, hence over an acyclic reachable graph), resolution emits the
fileset's own patterns first in original order, then the recursively
resolved patterns of each inherited fileset in listed order, with no
deduplication. -/
theorem fileset_resolution_preorder (fuel : Nat) (fs : Fileset)
    (named : FilesetMap) (ls : List (List String))
    (h : List.Forall₂ (ResolvesTo fuel named) fs.inherits ls) :
    write_fileset (fuel + 1) [] fs named
      = .ok (fs.patterns ++ ls.flatten) :=
  write_fileset_flatten fuel fs named ls h

/-- Witness for C3: A=["a.txt"] inheriting B=["b.txt"] inheriting
C=["c.txt"] resolves to ["a.txt", "b.txt", "c.txt"]. -/
theorem fileset_resolution_preorder_witness :
    write_fileset 3 [] ⟨["B"], ["a.txt"]⟩
        [("B", ⟨["C"], ["b.txt"]⟩), ("C", ⟨[], ["c.txt"]⟩)]
      = .ok ["a.txt", "b.txt", "c.txt"] :=
  fileset_resolution_preorder 2 ⟨["B"], ["a.txt"]⟩
    [("B", ⟨["C"], ["b.txt"]⟩), ("C", ⟨[], ["c.txt"]⟩)] [["b.txt", "c.txt"]]
    (List.Forall₂.cons ⟨⟨["C"], ["b.txt"]⟩, rfl, rfl⟩ List.Forall₂.nil)

/-- Claim C4 counterexample: resolving a fileset whose own pattern
"a.txt" precedes an unknown inherited name fails with `unknownFileset`,
but the destination has already received the pattern — it is NOT
unchanged on error, refuting the no-partial-writes part of the claim. -/
theorem unknown_fileset_partial_write_cex :
    write_fileset 1 [] ⟨["missing"], ["a.txt"]⟩ []
        = .unknownFileset "missing" ["a.txt"]
    ∧ (["a.txt"] : List String) ≠ [] := ⟨rfl, by decide⟩

/-- Claim C4 (amended): resolution of a fileset that directly or
transitively names an absent fileset never succeeds, and when it reports
`unknownFileset` the reported name really is absent from the map; the
destination however retains what was already written — its final contents
extend the initial contents (partial writes are preserved, not undone). -/
theorem unknown_fileset_no_success (named : FilesetMap) (fs : Fileset) :
    (MissingName named fs →
      ∀ fuel out res, write_fileset fuel out fs named ≠ .ok res)
    ∧ (∀ fuel out name buf,
        write_fileset fuel out fs named = .unknownFileset name buf →
        lookupFileset named name = none ∧ ∃ written, buf = out ++ written) := by
  constructor
  · exact fun h => missing_never_ok h
  · intro fuel out name buf h
    refine ⟨write_fileset_unknown_absent fuel fs named out name buf h, ?_⟩
    have hm := write_fileset_mapOut fuel fs named out
    rw [h] at hm
    cases hbase : write_fileset fuel [] fs named with
    | ok o => rw [hbase] at hm; simp [WfsResult.mapOut] at hm
    | unknownFileset n b =>
      rw [hbase] at hm
      simp [WfsResult.mapOut] at hm
      exact ⟨b, hm.2⟩
    | outOfFuel b => rw [hbase] at hm; simp [WfsResult.mapOut] at hm

/-- Witness for the amended C4 at a concrete fileset: resolution with a
missing inherited name does not succeed, the missing name is absent, and
the error-time destination extends the initial (empty) destination. -/
theorem unknown_fileset_no_success_witness :
    write_fileset 1 [] ⟨["missing"], ["a.txt"]⟩ [] ≠ .ok ["a.txt"]
    ∧ (lookupFileset [] "missing" = none
        ∧ ∃ written, (["a.txt"] : List String) = [] ++ written) :=
  ⟨(unknown_fileset_no_success [] ⟨["missing"], ["a.txt"]⟩).1
      (MissingName.direct (List.mem_singleton.mpr rfl) rfl) 1 [] ["a.txt"],
   (unknown_fileset_no_success [] ⟨["missing"], ["a.txt"]⟩).2
      1 [] "missing" ["a.txt"] rfl⟩

/-- Claim C5: retention translation emits flag/value pairs in exactly the
order keep-last, keep-hourly, keep-daily, keep-weekly, keep-monthly,
keep-yearly, keep-within, then one keep-tag pair per entry of
`keep_tags` whose value joins the tag-group with a comma; absent fields
emit no pair; e.g. keep_last=5 with tags [["a","b"],["c"]] gives
(keep-last,"5"), (keep-tag,"a,b"), (keep-tag,"c"). -/
theorem add_policy_flag_order :
    (∀ (policy : RetentionPolicy) (cmd : Invocation),
      add_policy policy cmd
        = cmd.argList (pairArgs (translate_spec policy)))
    ∧ translate_spec { keep_last := some 5, keep_tags := [["a", "b"], ["c"]] }
        = [("--keep-last", "5"), ("--keep-tag", "a,b"), ("--keep-tag", "c")] :=
  ⟨add_policy_eq, by decide⟩

/-- Claim C6: `is_empty` holds iff every retention field is absent/empty,
and a profile with an empty retention policy makes the forget operation a
successful no-op: no engine invocation, result `ok`. -/
theorem retention_is_empty_iff_and_forget_noop (p : RetentionPolicy)
    (t : ResticCtx) (profile : Profile) (prune : Bool)
    (spawn : SpawnOutcome) :
    (p.is_empty = true ↔
      (p.keep_last = none ∧ p.keep_hourly = none ∧ p.keep_daily = none
        ∧ p.keep_weekly = none ∧ p.keep_monthly = none
        ∧ p.keep_yearly = none ∧ p.keep_within = none ∧ p.keep_tags = []))
    ∧ (profile.retention.is_empty = true →
        forget_op t profile prune spawn = .ok []) := by
  constructor
  · simp [RetentionPolicy.is_empty, Option.isNone_iff_eq_none,
      List.isEmpty_iff, and_assoc]
  · intro h; simp [forget_op, h]

/-- Witness for C6: the all-default policy is empty, and forget on a
profile with it runs no invocation and succeeds, whatever the spawn
outcome would have been. -/
theorem retention_is_empty_iff_and_forget_noop_witness :
    forget_op ⟨"restic", ⟨true, []⟩, [], []⟩
        { repository := "r", base_directory := ⟨true, []⟩,
          «include» := ⟨[], []⟩ }
        true (some false)
      = .ok [] :=
  (retention_is_empty_iff_and_forget_noop {}
    ⟨"restic", ⟨true, []⟩, [], []⟩
    { repository := "r", base_directory := ⟨true, []⟩,
      «include» := ⟨[], []⟩ }
    true (some false)).2 rfl

/-- Claim C7: with an environment file set, the resolved environment is
the profile's inline `environment` merged with the file's mapping, file
entries overriding same-named inline entries (every key of either source
is present; the file's value wins on overlap); and the file path is
resolved relative to `base_directory` unless already absolute. -/
theorem environment_merge_file_overrides (profile : Profile)
    (file : List (String × String)) (env0 : Env) (ef : Path) (k : String)
    (h : profile.environment_file = some ef) :
    envLookup (add_credentials profile file env0) k
      = (match lookupLast file k with
          | some v => some v
          | none => match lookupLast profile.environment k with
            | some v => some v
            | none => envLookup env0 k)
    ∧ environment_file_path profile
        = some (if ef.absolute then ef
            else ⟨profile.base_directory.absolute,
              profile.base_directory.components ++ ef.components⟩) := by
  constructor
  · exact add_credentials_lookup profile file env0 k (by rw [h]; rfl)
  · simp [environment_file_path, h, Path.join]

/-- Witness for C7: environment {X:1} with file contents {X:2, Y:3}
resolves X to "2" and Y to "3", and a relative environment-file path is
resolved under the base directory. -/
theorem environment_merge_file_overrides_witness :
    envLookup (add_credentials
        { repository := "r", base_directory := ⟨true, ["base"]⟩,
          environment := [("X", "1")],
          environment_file := some ⟨false, ["env.toml"]⟩,
          «include» := ⟨[], []⟩ }
        [("X", "2"), ("Y", "3")] []) "X" = some "2"
    ∧ envLookup (add_credentials
        { repository := "r", base_directory := ⟨true, ["base"]⟩,
          environment := [("X", "1")],
          environment_file := some ⟨false, ["env.toml"]⟩,
          «include» := ⟨[], []⟩ }
        [("X", "2"), ("Y", "3")] []) "Y" = some "3"
    ∧ environment_file_path
        { repository := "r", base_directory := ⟨true, ["base"]⟩,
          environment := [("X", "1")],
          environment_file := some ⟨false, ["env.toml"]⟩,
          «include» := ⟨[], []⟩ }
      = some ⟨true, ["base", "env.toml"]⟩ :=
  ⟨(environment_merge_file_overrides _ [("X", "2"), ("Y", "3")] []
      ⟨false, ["env.toml"]⟩ "X" rfl).1,
   (environment_merge_file_overrides _ [("X", "2"), ("Y", "3")] []
      ⟨false, ["env.toml"]⟩ "Y" rfl).1,
   (environment_merge_file_overrides _ [("X", "2"), ("Y", "3")] []
      ⟨false, ["env.toml"]⟩ "Y" rfl).2⟩

/-- Claim C8 counterexample: the probe is NOT the sole operation in which
a failing external process outcome is reinterpreted as a normal non-error
result — the snapshots listing (`dump_snapshots`) also returns success
when the spawned process exits with failure. -/
theorem snapshots_failure_not_error_cex :
    dump_snapshots_run (some false) = .ok () := rfl

/-- Claim C8 (amended): the probe returns true on a successful exit and
false — not an error — on a failing exit; init, backup, forget and prune
all propagate a failing exit as an error, while the probe and the
snapshots listing are the two operations that do not. -/
theorem probe_interprets_failure :
    (∀ status : Bool, repository_exists_run (some status) = .ok status)
    ∧ init_run (some false) = .error .initFailed
    ∧ backup_run (some false) = .error .backupFailed
    ∧ forget_run (some false) = .error .forgetFailed
    ∧ prune_run (some false) = .error .pruneFailed
    ∧ dump_snapshots_run (some false) = .ok () :=
  ⟨fun _ => rfl, rfl, rfl, rfl, rfl, rfl⟩

/-- Claim C9: a fileset whose reachable inheritance tree has a depth
bound (for the finite maps of a real configuration, exactly the acyclic
case) resolves without exhausting that much fuel, i.e. the recursion
terminates; a fileset that inherits itself exhausts every amount of fuel
— the unguarded recursion never terminates. -/
theorem fileset_resolution_termination :
    (∀ (named : FilesetMap) (fs : Fileset) (n : Nat),
      DepthLE named fs n →
      ∀ out, (write_fileset n out fs named).ranOut = false)
    ∧ (∀ fuel out,
        (write_fileset fuel out cyclicFs cyclicMap).ranOut = true) :=
  ⟨fun _ _ _ h => depthLE_no_fuel_exhaustion h, cyclic_exhausts_fuel⟩

/-- Witness for C9: a fileset with no inheritance (depth 1) resolves
within fuel 1, and the self-inheriting fileset is still running after
5 units of fuel. -/
theorem fileset_resolution_termination_witness :
    (write_fileset 1 ["seed"] ⟨[], ["x"]⟩ []).ranOut = false
    ∧ (write_fileset 5 [] cyclicFs cyclicMap).ranOut = true :=
  ⟨fileset_resolution_termination.1 [] ⟨[], ["x"]⟩ 1
      (DepthLE.step (fun _ _ hmem _ => nomatch hmem)) ["seed"],
   fileset_resolution_termination.2 5 []⟩

/-- Claim C10: the snapshots listing returns success for every exit
status of the spawned process and fails only when the process cannot be
spawned at all — unlike backup, forget and prune, which report a failing
exit as an error. -/
theorem dump_snapshots_ignores_exit_status (status : Bool) :
    dump_snapshots_run (some status) = .ok ()
    ∧ dump_snapshots_run none = .error .couldNotRun
    ∧ backup_run (some false) = .error .backupFailed
    ∧ forget_run (some false) = .error .forgetFailed
    ∧ prune_run (some false) = .error .pruneFailed :=
  ⟨rfl, rfl, rfl, rfl, rfl⟩

end Rustic
